import Mathlib

/-!
Shallow embedding of the log-reading core of the tektoncd-cli fork:
the pod lifecycle watcher (`pkg/pods`, file `src/unnamed/part_000`) and the
task log reader (`src/pkg/log/task_reader.go`).  Pure data transformations
are translated as Lean functions; the channel-based streaming loops are
translated as list-producing functions parameterised over the external
inputs (container log lines, error records, watch events, select
schedules); the `Pod.Wait` / informer-handler channel protocol is
translated as an explicit transition system.
-/

namespace TknLog

/-- Status of a Kubernetes condition (`corev1.ConditionTrue` /
`ConditionFalse` / `ConditionUnknown`). -/
inductive ConditionStatus
  | isTrue
  | isFalse
  | unknown
  deriving DecidableEq, Repr

/-- Pod phase (`corev1.PodPhase`). -/
inductive PodPhase
  | pending
  | running
  | succeeded
  | failed
  | phaseUnknown
  deriving DecidableEq, Repr

/-- Pod condition type; the watcher only distinguishes
`corev1.PodInitialized` and `corev1.ContainersReady`. -/
inductive PodConditionType
  | podScheduled
  | podInitialized
  | podReady
  | containersReady
  deriving DecidableEq, Repr

/-- One entry of `pod.Status.Conditions`. -/
structure PodCondition where
  condType : PodConditionType
  status : ConditionStatus
  message : String
  deriving DecidableEq, Repr

/-- The `corev1.ContainerState` union: at most one of the three pointers is
set; the Go zero value has all three nil.  The payloads (reason, start
time, exit code) are abstracted to simple values. -/
structure ContainerState where
  waiting : Option String := none
  running : Option Nat := none
  terminated : Option Int := none
  deriving DecidableEq, Repr

/-- One entry of `pod.Status.ContainerStatuses` /
`pod.Status.InitContainerStatuses`. -/
structure ContainerStatus where
  name : String
  state : ContainerState
  deriving DecidableEq, Repr

/-- The slice of a `corev1.Pod` that `task_reader.go` and the pod watcher
consume: spec container names (in declaration order) and the status
fields. -/
structure Pod where
  name : String
  phase : PodPhase
  deletionTimestamp : Option Nat := none
  conditions : List PodCondition := []
  initContainers : List String := []
  containers : List String := []
  initContainerStatuses : List ContainerStatus := []
  containerStatuses : List ContainerStatus := []
  deriving DecidableEq, Repr

/-- The condition scan of `checkPodStatus` (part_000 lines 187-193): the
first condition of type `PodInitialized` or `ContainersReady` whose status
is `Unknown`. -/
def findUnknownCond (pod : Pod) : Option PodCondition :=
  pod.conditions.find? (fun c =>
    (c.condType == PodConditionType.podInitialized
      || c.condType == PodConditionType.containersReady)
    && c.status == ConditionStatus.unknown)

/-- The phase test of `checkPodStatus` (part_000 lines 180-182). -/
def phaseReadable (pod : Pod) : Bool :=
  pod.phase == PodPhase.succeeded
    || pod.phase == PodPhase.running
    || pod.phase == PodPhase.failed

/-- `checkPodStatus` (part_000 lines 169-196), the PodWatcher policy
function, minus the `interface{}` cast (the input here is already a pod).
Returns the pair (pod result, error message); `(none, none)` means the
wait continues.  Note the Go format string `"failed to run the pod %s "`
carries a trailing space after the name. -/
def checkPodStatus (pod : Pod) : Option Pod × Option String :=
  if pod.deletionTimestamp.isSome then
    (some pod, some ("failed to run the pod " ++ pod.name ++ " "))
  else if phaseReadable pod then
    (some pod, none)
  else
    match findUnknownCond pod with
    | some c => (some pod, some c.message)
    | none => (none, none)

/-- `strings.TrimPrefix(name, "step-")` as used in `getSteps` /
`getInitSteps` (task_reader.go lines 402, 420): remove one leading
`"step-"` when present.  Stated on the character list underlying the
string ("step-" is 5 characters). -/
def trimStep (n : String) : String :=
  if n.data.take 5 = "step-".data then String.mk (n.data.drop 5) else n

/-- The status map built by `getSteps` / `getInitSteps` (task_reader.go
lines 394-397, 412-415): a Go map written in slice order (a later entry
with the same name overwrites an earlier one), looked up at a container
name; a missing key yields the zero `ContainerState`. -/
def stateMap (statuses : List ContainerStatus) (n : String) : ContainerState :=
  (statuses.foldl
    (fun acc cs => if cs.name == n then some cs.state else acc) none).getD {}

/-- The `step` record of task_reader.go lines 38-42. -/
structure Step where
  name : String
  container : String
  state : ContainerState
  deriving DecidableEq, Repr

/-- `step.hasStarted` (task_reader.go lines 44-46): `state.Waiting == nil`. -/
def hasStarted (s : Step) : Bool :=
  s.state.waiting == none

/-- `getSteps` (task_reader.go lines 411-427). -/
def getSteps (pod : Pod) : List Step :=
  pod.containers.map (fun c =>
    { name := trimStep c, container := c, state := stateMap pod.containerStatuses c })

/-- `getInitSteps` (task_reader.go lines 393-409). -/
def getInitSteps (pod : Pod) : List Step :=
  pod.initContainers.map (fun c =>
    { name := trimStep c, container := c, state := stateMap pod.initContainerStatuses c })

/-- One insertion into the Go map `stepsToAdd` (task_reader.go lines
379-382), modelled as an association list whose most recent write is
found first. -/
def addTrue (m : List (String × Bool)) (k : String) : List (String × Bool) :=
  (k, true) :: m

/-- Lookup in the modelled Go map; a missing key yields the zero value
`false`. -/
def lookupFlag (m : List (String × Bool)) (k : String) : Bool :=
  match m.find? (fun p => p.1 == k) with
  | some p => p.2
  | none => false

/-- `filterSteps` (task_reader.go lines 357-391): start from the regular
steps, prepend init steps when `allSteps`, and when a step allow-list is
given keep only the regular steps whose name is in the map built from it
(the init steps are appended before the allow-list is consulted). -/
def filterSteps (pod : Pod) (allSteps : Bool) (stepsGiven : List String) : List Step :=
  let stepsInPod := getSteps pod
  let initSteps := if allSteps then getInitSteps pod else []
  if stepsGiven.isEmpty then
    initSteps ++ stepsInPod
  else
    let stepsToAdd := stepsGiven.foldl addTrue []
    initSteps ++ stepsInPod.filter (fun sp => lookupFlag stepsToAdd sp.name)

/-- One entry of `tr.Status.RetriesStatus`; only its `PodName` field is
read by the log reader. -/
structure RetryStatus where
  podName : String
  deriving DecidableEq, Repr

/-- One entry of `tr.Status.Conditions`. -/
structure TRCondition where
  status : ConditionStatus
  message : String
  deriving DecidableEq, Repr

/-- The slice of a `v1.TaskRun` consumed by task_reader.go. -/
structure TaskRun where
  name : String
  podName : String := ""
  retriesStatus : List RetryStatus := []
  conditions : List TRCondition := []
  startTime : Option Nat := none
  completionTime : Option Nat := none
  deriving DecidableEq, Repr

/-- Modelled from the spec: `has_started := started_at set` (§3 Data
model).  The `TaskRun.HasStarted` helper lives in the pipeline dependency
and is not among the given sources. -/
def trHasStarted (tr : TaskRun) : Bool :=
  tr.startTime.isSome

/-- Modelled from the spec: `is_done := completed_at set` (§3 Data
model).  The `TaskRun.IsDone` helper lives in the pipeline dependency and
is not among the given sources. -/
def trIsDone (tr : TaskRun) : Bool :=
  tr.completionTime.isSome

/-- `isFailure` (task_reader.go lines 448-451): the conditions slice is
non-empty and its first entry has status `False`. -/
def isFailure (tr : TaskRun) : Bool :=
  match tr.conditions with
  | [] => false
  | c :: _ => c.status == ConditionStatus.isFalse

/-- `hasTaskRunFailed` (task_reader.go lines 429-434); `none` means no
error. -/
def hasTaskRunFailed (tr : TaskRun) (taskName : String) : Option String :=
  if isFailure tr then
    some ("task " ++ taskName ++ " has failed: "
      ++ ((tr.conditions.headD ⟨ConditionStatus.isTrue, ""⟩).message))
  else
    none

/-- `areRetriesScheduled` (task_reader.go lines 453-459).  The retry
count comes from the CLI as a Go `int`. -/
def areRetriesScheduled (tr : TaskRun) (retries : Int) : Bool :=
  if trIsDone tr then false
  else (tr.retriesStatus.length : Int) < retries

/-- The pod-name enumeration of `readAvailableTaskLogs` (task_reader.go
lines 127-143): the goroutine feeding `podC` sends every retry pod name
in order and then the current pod name, all only when the current pod
name is non-empty. -/
def availablePodNames (tr : TaskRun) : List String :=
  if tr.podName != "" then
    tr.retriesStatus.map (fun rs => rs.podName) ++ [tr.podName]
  else
    []

/-- `addPod` inside `getTaskRunPodNames` (task_reader.go lines 302-307):
emit a name only when it is not yet in `podMap`.  Returns the updated
seen set and the emitted names (empty or a singleton). -/
def addPod (seen : List String) (n : String) : List String × List String :=
  if seen.contains n then (seen, [])
  else (seen ++ [n], [n])

/-- Running `addPod` over a list of names in order (the `for` loops of
task_reader.go lines 309-316): returns the final seen set and the
concatenation of the emitted names. -/
def emitAll (seen : List String) : List String → List String × List String
  | [] => (seen, [])
  | n :: rest =>
    let r := addPod seen n
    let t := emitAll r.1 rest
    (t.1, r.2 ++ t.2)

/-- The entry emissions of `getTaskRunPodNames` (task_reader.go lines
309-316): every retry pod name in order, then the current pod name when
non-empty, deduplicated through `addPod`. -/
def liveEntry (tr : TaskRun) : List String × List String :=
  emitAll []
    (tr.retriesStatus.map (fun rs => rs.podName)
      ++ (if tr.podName != "" then [tr.podName] else []))

/-- The initial pod names emitted by live discovery. -/
def liveInitPodNames (tr : TaskRun) : List String :=
  (liveEntry tr).2

/-- One output of the live pod-name discovery goroutine: a pod name on
`podC` or an error on `errC`. -/
inductive DiscoveryOut
  | pod (n : String)
  | fail (msg : String)
  deriving DecidableEq, Repr

/-- The watch-event branch of the `getTaskRunPodNames` loop
(task_reader.go lines 320-334), run over a list of delivered events.  An
event is the result of `cast2taskrun`: `Except.error` when the cast
fails (the goroutine forwards the error and returns), `Except.ok run`
otherwise.  Returns the emitted outputs and whether the goroutine
returned before the event list was exhausted. -/
def eventLoop (retries : Int) (seen : List String) :
    List (Except String TaskRun) → List DiscoveryOut × Bool
  | [] => ([], false)
  | Except.error m :: _ => ([DiscoveryOut.fail m], true)
  | Except.ok run :: rest =>
    if run.podName != "" then
      let r := addPod seen run.podName
      if areRetriesScheduled run retries then
        let t := eventLoop retries r.1 rest
        (r.2.map DiscoveryOut.pod ++ t.1, t.2)
      else
        (r.2.map DiscoveryOut.pod, true)
    else
      eventLoop retries seen rest

/-- Outcome of the timeout branch of `getTaskRunPodNames`. -/
inductive TimeoutOutcome
  | emitErr (msg : String)
  | stopNormal
  | keepWaiting
  deriving DecidableEq, Repr

/-- The timeout error message of task_reader.go line 348. -/
def notStartedMsg (taskName : String) : String :=
  "task " ++ taskName ++ " has not started yet or pod for task not yet available"

/-- The `case <-timeout` branch of `getTaskRunPodNames` (task_reader.go
lines 335-349): first the failure check, then the started-and-named
check (which merely continues the loop when retries are still
scheduled), otherwise the not-started error. -/
def timeoutCheck (tr : TaskRun) (taskName : String) (retries : Int) : TimeoutOutcome :=
  match hasTaskRunFailed tr taskName with
  | some e => TimeoutOutcome.emitErr e
  | none =>
    if trHasStarted tr && tr.podName != "" then
      if areRetriesScheduled tr retries then TimeoutOutcome.keepWaiting
      else TimeoutOutcome.stopNormal
    else
      TimeoutOutcome.emitErr (notStartedMsg taskName)

/-- The `Log` record emitted on `logC` (task_reader.go lines 174, 178). -/
structure Log where
  task : String
  taskDisplayName : String
  step : String
  log : String
  deriving DecidableEq, Repr

/-- A record on one of the two output channels of the task reader. -/
inductive Event
  | logRec (l : Log)
  | errRec (msg : String)
  deriving DecidableEq, Repr

/-- A line record for a step (task_reader.go line 178). -/
def mkLog (t d s line : String) : Log :=
  { task := t, taskDisplayName := d, step := s, log := line }

/-- The end-of-stream sentinel for a step (task_reader.go line 174). -/
def eofLog (t d s : String) : Log :=
  mkLog t d s "EOFLOG"

/-- The per-step error wrapper of task_reader.go line 186. -/
def stepErrMsg (stepName msg : String) : String :=
  "failed to get logs for " ++ stepName ++ ": " ++ msg

/-- The tail of the select loop of `readStepsLogs` once the container
error channel is nil: only the line branch can fire, so the remaining
lines are emitted in order and the close of the line channel emits one
`EOFLOG`. -/
def drainLines (t d s : String) : List String → List Event
  | [] => [Event.logRec (eofLog t d s)]
  | l :: r => Event.logRec (mkLog t d s l) :: drainLines t d s r

/-- The tail of the select loop of `readStepsLogs` once the container
line channel is nil: only the error branch can fire, so the remaining
errors are forwarded and the close of the error channel emits
nothing. -/
def drainErrs (s : String) : List String → List Event
  | [] => []
  | e :: r => Event.errRec (stepErrMsg s e) :: drainErrs s r

/-- The select loop of `readStepsLogs` (task_reader.go lines 169-188)
for one step: multiplex the container line channel and the container
error channel until both are nil.  `none` models a nil-ed out channel,
`some l` an open channel that will deliver `l` and then close.
Receiving the close of the line channel emits one `EOFLOG` log record;
receiving the close of the error channel emits nothing.  While both
channels are open the select's choice is external: it is read off
`sched`, one entry per iteration, defaulting to the line branch when
`sched` is exhausted; once one channel is nil only the other branch can
fire and the loop drains it. -/
def muxStep (t d s : String) (lineC errC : Option (List String)) (sched : List Bool) :
    List Event :=
  match lineC, errC with
  | none, none => []
  | some ls, none => drainLines t d s ls
  | none, some es => drainErrs s es
  | some ls, some es =>
    match sched with
    | [] =>
      drainLines t d s ls ++ drainErrs s es
    | b :: sch =>
      if b then
        match ls with
        | [] => Event.logRec (eofLog t d s) :: drainErrs s es
        | l :: r => Event.logRec (mkLog t d s l) :: muxStep t d s (some r) (some es) sch
      else
        match es with
        | [] => drainLines t d s ls
        | e :: r => Event.errRec (stepErrMsg s e) :: muxStep t d s (some ls) (some r) sch

/-- Outcome of `container.LogReader(follow, timestamps).Read()` for one
step: either the synchronous error of task_reader.go line 164, or the
pair of channel contents (log lines and transport errors). -/
inductive ReadResult
  | readErr (msg : String)
  | ok (lines : List String) (errs : List String)
  deriving DecidableEq, Repr

/-- External behaviour of one step's container: the `Read()` outcome,
the select schedule of the multiplexing loop, and the result of the
post-step `container.Status()` call (task_reader.go line 190). -/
structure StepRun where
  read : ReadResult
  sched : List Bool := []
  statusErr : Option String := none

/-- The per-step read error wrapper of task_reader.go line 165. -/
def readErrMsg (stepName msg : String) : String :=
  "error in getting logs for step " ++ stepName ++ ": " ++ msg

/-- The skip test of task_reader.go line 156: in non-follow mode a step
that has not started is skipped. -/
def stepSkipped (follow : Bool) (s : Step) : Bool :=
  !follow && !hasStarted s

/-- `readStepsLogs` (task_reader.go lines 149-195) as a function of the
filtered step list paired with each step's container behaviour: skip
not-started steps in non-follow mode, forward a read error and continue,
otherwise multiplex the two container channels, then consult
`container.Status()` — on error forward it and stop the remaining steps
of this pod. -/
def readStepsLogs (t d : String) (follow : Bool) : List (Step × StepRun) → List Event
  | [] => []
  | (st, run) :: rest =>
    if stepSkipped follow st then
      readStepsLogs t d follow rest
    else
      match run.read with
      | ReadResult.readErr m =>
        Event.errRec (readErrMsg st.name m) :: readStepsLogs t d follow rest
      | ReadResult.ok lines errs =>
        let evs := muxStep t d st.name (some lines) (some errs) run.sched
        match run.statusErr with
        | some e => evs ++ [Event.errRec e]
        | none => evs ++ readStepsLogs t d follow rest

/-- The steps of a step list that `readStepsLogs` actually streams
(reaches with a successful `Read()`), paired with their log lines: a
skipped or read-failed step is passed over, and a step whose
`container.Status()` errors is the last one streamed. -/
def streamedSteps (follow : Bool) : List (Step × StepRun) → List (Step × List String)
  | [] => []
  | (st, run) :: rest =>
    if stepSkipped follow st then streamedSteps follow rest
    else
      match run.read with
      | ReadResult.readErr _ => streamedSteps follow rest
      | ReadResult.ok lines _ =>
        match run.statusErr with
        | some _ => [(st, lines)]
        | none => (st, lines) :: streamedSteps follow rest

/-- Projection of an event stream onto its log records. -/
def toLog : Event → Option Log
  | Event.logRec l => some l
  | Event.errRec _ => none

/-- The log records of an event stream. -/
def logsOf (evs : List Event) : List Log :=
  evs.filterMap toLog

/-- The expected log records of a list of streamed steps: for each step
its lines in order followed by one `EOFLOG`. -/
def stepBlocks (t d : String) : List (Step × List String) → List Log
  | [] => []
  | (st, lines) :: rest =>
    lines.map (mkLog t d st.name) ++ (eofLog t d st.name :: stepBlocks t d rest)

/-- Result of fetching a pod inside the `readPodLogs` loop
(task_reader.go lines 247-255): `pod` is the returned pod pointer
(`none` models a nil pointer, which is what `Pod.Wait` returns alongside
an error, part_000 lines 77-79) and `err` the returned error. -/
structure PodFetch where
  pod : Option Pod
  err : Option String := none

/-- One pod name received on `podC` together with the external behaviour
attached to it: the fetch/wait outcome and, per container name, the
behaviour of that container's log reader. -/
structure PodInput where
  fetch : PodFetch
  runs : String → StepRun

/-- The configuration fields of `Reader` that `readPodLogs` and
`readStepsLogs` consume. -/
structure ReaderCfg where
  task : String
  displayName : String
  runName : String
  allSteps : Bool := false
  steps : List String := []
  deriving DecidableEq, Repr

/-- An observable output of the `readPodLogs` goroutine; `crash` marks a
Go nil-pointer dereference (a panic that kills the goroutine). -/
inductive PEvent
  | logRec (l : Log)
  | errRec (msg : String)
  | crash
  deriving DecidableEq, Repr

/-- Injection of step-level events into pod-level events. -/
def liftEvent : Event → PEvent
  | Event.logRec l => PEvent.logRec l
  | Event.errRec m => PEvent.errRec m

/-- The fetch-error wrapper of task_reader.go line 257. -/
def podFailMsg (cfg : ReaderCfg) (m : String) : String :=
  "task " ++ cfg.task ++ " failed: " ++ m ++ ". Run tkn tr desc "
    ++ cfg.runName ++ " for more details"

/-- The pod loop of `readPodLogs` (task_reader.go lines 241-262): for
each pod name, fetch (or wait for) the pod; on error forward the wrapped
error — and then, with no `continue`, fall through to
`filterSteps(pod, ...)`.  When the fetch returned a nil pod pointer,
`getSteps` dereferences it (`pod.Status.ContainerStatuses`,
task_reader.go line 413) and the goroutine panics: no later pod name is
processed.  Otherwise the pod's filtered steps are streamed and the loop
moves on to the next pod name. -/
def readPodLogs (cfg : ReaderCfg) (follow : Bool) : List PodInput → List PEvent
  | [] => []
  | pin :: rest =>
    let errEvs := match pin.fetch.err with
      | some m => [PEvent.errRec (podFailMsg cfg m)]
      | none => []
    match pin.fetch.pod with
    | none => errEvs ++ [PEvent.crash]
    | some pod =>
      let steps := filterSteps pod cfg.allSteps cfg.steps
      errEvs
        ++ (readStepsLogs cfg.task cfg.displayName follow
              (steps.map (fun s => (s, pin.runs s.container)))).map liftEvent
        ++ readPodLogs cfg follow rest

/-- Identity of a goroutine that can hold the `Pod.Wait` mutex: the
waiting goroutine itself, or one of two informer event-handler
invocations. -/
inductive Holder
  | waiter
  | h1
  | h2
  deriving DecidableEq, Repr

/-- Program counter of one informer event-handler invocation (part_000
lines 116-150): about to `mu.Lock()`; holding the mutex at the `select`;
holding the mutex blocked in `eventC <- obj`; returned (mutex
released). -/
inductive HandlerPC
  | wantMu
  | checkStop
  | sending
  | finished
  deriving DecidableEq, Repr

/-- Program counter of the `Pod.Wait` goroutine (part_000 lines 74-105):
receiving in `for e := range eventC`; broken out of the loop with the
deferred close about to `mu.Lock()`; holding the mutex about to close
`stopC` and `eventC`; returned. -/
inductive WaiterPC
  | receiving
  | lockForClose
  | closing
  | done
  deriving DecidableEq, Repr

/-- Global state of the `Pod.Wait` channel protocol: the mutex holder,
whether `stopC` and `eventC` are closed, and the three program
counters. -/
structure WState where
  mu : Option Holder
  stopClosed : Bool
  eventClosed : Bool
  waiter : WaiterPC
  pc1 : HandlerPC
  pc2 : HandlerPC
  deriving DecidableEq, Repr

/-- The enabled transitions of the `Pod.Wait` protocol from a state.
`dec1`/`dec2` say whether `checkPodStatus` on the event carried by
handler 1 / handler 2 yields a result (pod or error), i.e. whether its
delivery makes `Wait` break out of the receive loop.  Transitions, one
per guarded branch below: a handler acquires the free mutex
(`mu.Lock()`); a mutex-holding handler at the `select` sees `stopC` open
and moves to the send, or sees `stopC` closed and returns (releasing the
mutex); a blocked send rendezvouses with the receiving waiter (the
handler returns and releases the mutex, the waiter either breaks out or
keeps receiving); the broken-out waiter acquires the free mutex; the
mutex-holding waiter closes both channels, releases the mutex and
returns.  An unbuffered send can only complete while the waiter is at
the receive and the channel is open. -/
def successors (dec1 dec2 : Bool) (s : WState) : List WState :=
  (if s.pc1 == HandlerPC.wantMu && s.mu == none then
    [{ s with mu := some Holder.h1, pc1 := HandlerPC.checkStop }] else [])
  ++ (if s.pc2 == HandlerPC.wantMu && s.mu == none then
    [{ s with mu := some Holder.h2, pc2 := HandlerPC.checkStop }] else [])
  ++ (if s.pc1 == HandlerPC.checkStop && !s.stopClosed then
    [{ s with pc1 := HandlerPC.sending }] else [])
  ++ (if s.pc1 == HandlerPC.checkStop && s.stopClosed then
    [{ s with pc1 := HandlerPC.finished, mu := none }] else [])
  ++ (if s.pc2 == HandlerPC.checkStop && !s.stopClosed then
    [{ s with pc2 := HandlerPC.sending }] else [])
  ++ (if s.pc2 == HandlerPC.checkStop && s.stopClosed then
    [{ s with pc2 := HandlerPC.finished, mu := none }] else [])
  ++ (if s.pc1 == HandlerPC.sending && s.waiter == WaiterPC.receiving
        && !s.eventClosed then
    (let w := if dec1 then WaiterPC.lockForClose else WaiterPC.receiving
    [{ s with pc1 := HandlerPC.finished, mu := none, waiter := w }]) else [])
  ++ (if s.pc2 == HandlerPC.sending && s.waiter == WaiterPC.receiving
        && !s.eventClosed then
    (let w := if dec2 then WaiterPC.lockForClose else WaiterPC.receiving
    [{ s with pc2 := HandlerPC.finished, mu := none, waiter := w }]) else [])
  ++ (if s.waiter == WaiterPC.lockForClose && s.mu == none then
    [{ s with mu := some Holder.waiter, waiter := WaiterPC.closing }] else [])
  ++ (if s.waiter == WaiterPC.closing then
    [{ s with stopClosed := true, eventClosed := true, mu := none, waiter := WaiterPC.done }]
    else [])

/-- One protocol step: the target is among the enabled successors. -/
def WStep (dec1 dec2 : Bool) (a b : WState) : Prop :=
  b ∈ successors dec1 dec2 a

instance (dec1 dec2 : Bool) (a b : WState) : Decidable (WStep dec1 dec2 a b) :=
  inferInstanceAs (Decidable (b ∈ successors dec1 dec2 a))

/-- Initial state of one `Pod.Wait` call with two pending informer
events: channels open, mutex free, waiter receiving, both handler
invocations about to lock. -/
def initW : WState :=
  { mu := none, stopClosed := false, eventClosed := false,
    waiter := WaiterPC.receiving, pc1 := HandlerPC.wantMu, pc2 := HandlerPC.wantMu }

/-- The deadlocked state reached when handler 2 acquires the mutex and
commits to its send after `Wait` has broken out of the receive loop:
handler 2 holds the mutex blocked in `eventC <- obj` with nobody
receiving, while the waiter's deferred close is blocked in
`mu.Lock()`. -/
def stuckW : WState :=
  { mu := some Holder.h2, stopClosed := false, eventClosed := false,
    waiter := WaiterPC.lockForClose, pc1 := HandlerPC.finished,
    pc2 := HandlerPC.sending }

/-! Helper lemmas shared by several claims. -/

theorem lookupFlag_foldl (given : List String) (m : List (String × Bool)) (k : String) :
    lookupFlag (given.foldl addTrue m) k = (given.contains k || lookupFlag m k) := by
  induction given generalizing m with
  | nil => simp
  | cons g rest ih =>
    rw [List.foldl_cons, ih]
    by_cases h : g = k
    · subst h
      have hl : lookupFlag (addTrue m g) g = true := by
        simp [addTrue, lookupFlag]
      rw [hl]
      simp
    · have hl : lookupFlag (addTrue m g) k = lookupFlag m k := by
        simp [addTrue, lookupFlag, h]
      rw [hl, List.contains_cons]
      have h2 : (k == g) = false := by simp [Ne.symm h]
      simp [h2, Bool.or_assoc]

theorem foldl_state_none (c : String) :
    ∀ (statuses : List ContainerStatus), (∀ cs ∈ statuses, cs.name ≠ c) →
      statuses.foldl (fun acc cs => if cs.name == c then some cs.state else acc)
        (none : Option ContainerState) = none
  | [], _ => rfl
  | cs :: rest, h => by
    have hne : ¬((cs.name == c) = true) := by
      simp [h cs (List.mem_cons_self cs rest)]
    rw [List.foldl_cons, if_neg hne]
    exact foldl_state_none c rest (fun x hx => h x (List.mem_cons_of_mem cs hx))

theorem stateMap_nomatch (statuses : List ContainerStatus) (c : String)
    (h : ∀ cs ∈ statuses, cs.name ≠ c) :
    stateMap statuses c = {} := by
  unfold stateMap
  rw [foldl_state_none c statuses h]
  rfl

theorem emitAll_of_nodup (names : List String) (seen : List String)
    (hseen : ∀ n ∈ names, n ∉ seen) (hnd : names.Nodup) :
    emitAll seen names = (seen ++ names, names) := by
  induction names generalizing seen with
  | nil => simp [emitAll]
  | cons n rest ih =>
    have hn : seen.contains n = false := by
      simp [hseen n (List.mem_cons_self n rest)]
    have hrest : ∀ m ∈ rest, m ∉ seen ++ [n] := by
      intro m hm
      simp only [List.mem_append, List.mem_singleton]
      rintro (hc | hc)
      · exact hseen m (List.mem_cons_of_mem n hm) hc
      · exact (List.nodup_cons.mp hnd).1 (hc ▸ hm)
    simp only [emitAll, addPod, hn, Bool.false_eq_true, if_false]
    rw [ih (seen ++ [n]) hrest (List.nodup_cons.mp hnd).2]
    simp

/-! Claim C3: the PodWatcher policy function `checkPodStatus`. -/

/-- A pod in a readable phase that also carries a deletion timestamp: the
claim's phase clause promises `(pod, no error)` here, but the code checks
`DeletionTimestamp` first. -/
def exPodDel : Pod :=
  { name := "p", phase := PodPhase.succeeded, deletionTimestamp := some 1 }

/-- C3 counterexample: `exPodDel` has phase `Succeeded`, so the claim as
stated returns the pod with no error; `checkPodStatus` instead returns
the deletion error, because the deletion-timestamp check precedes the
phase check. -/
theorem c3_counterexample :
    exPodDel.phase = PodPhase.succeeded
    ∧ exPodDel.deletionTimestamp.isSome = true
    ∧ checkPodStatus exPodDel = (some exPodDel, some "failed to run the pod p ") := by
  decide

/-- C3 amended: the policy rules hold with the code's precedence — the
deletion-timestamp check first (its error message carries a trailing
space after the name), then the readable-phase check, then the first
`PodInitialized`/`ContainersReady` condition with status `Unknown`;
otherwise no result and the wait continues. -/
theorem c3_checkPodStatus_amended (pod : Pod) :
    (pod.deletionTimestamp.isSome = true →
      checkPodStatus pod = (some pod, some ("failed to run the pod " ++ pod.name ++ " ")))
    ∧ (pod.deletionTimestamp = none → phaseReadable pod = true →
      checkPodStatus pod = (some pod, none))
    ∧ (∀ c, pod.deletionTimestamp = none → phaseReadable pod = false →
      findUnknownCond pod = some c → checkPodStatus pod = (some pod, some c.message))
    ∧ (pod.deletionTimestamp = none → phaseReadable pod = false →
      findUnknownCond pod = none → checkPodStatus pod = (none, none)) := by
  refine ⟨?_, ?_, ?_, ?_⟩
  · intro h
    simp [checkPodStatus, h]
  · intro h hp
    simp [checkPodStatus, h, hp]
  · intro c h hp hc
    simp [checkPodStatus, h, hp, hc]
  · intro h hp hc
    simp [checkPodStatus, h, hp, hc]

/-- A deleted pending pod, exercising the deletion clause of C3. -/
def exPodDel2 : Pod :=
  { name := "q", phase := PodPhase.pending, deletionTimestamp := some 3 }

/-- C3 witness: the amended theorem applied to `exPodDel2`. -/
theorem c3_witness :
    checkPodStatus exPodDel2 = (some exPodDel2, some "failed to run the pod q ") :=
  (c3_checkPodStatus_amended exPodDel2).1 (by decide)

/-! Claim C5: `filterSteps`. -/

/-- A pod with one init container and one regular container. -/
def exPodInit : Pod :=
  { name := "q", phase := PodPhase.running,
    initContainers := ["step-init"], containers := ["step-run"] }

/-- C5 counterexample: with `allSteps = true` and allow-list `["run"]`,
the init step named `init` appears in the result although `"init"` is
not in the allow-list — the prepended init steps bypass the
intersection, refuting "a step appears iff its stripped name is in the
list". -/
theorem c5_counterexample :
    (filterSteps exPodInit true ["run"]).map (fun s => s.name) = ["init", "run"]
    ∧ (["run"] : List String).contains "init" = false := by
  decide

/-- C5 amended: the filtered list starts from the regular steps
(prefix-stripped name, state from `container_statuses`); with `allSteps`
the init steps are prepended; a non-empty allow-list intersects only the
regular steps — the prepended init steps are kept regardless of the
allow-list. -/
theorem c5_filterSteps_amended (pod : Pod) (allSteps : Bool) (given : List String) :
    filterSteps pod allSteps given
      = (if allSteps then getInitSteps pod else [])
        ++ (if given.isEmpty then getSteps pod
            else (getSteps pod).filter (fun sp => given.contains sp.name)) := by
  by_cases h : given.isEmpty
  · simp [filterSteps, h]
  · simp only [filterSteps, h, Bool.false_eq_true, if_false]
    congr 1
    apply List.filter_congr
    intro sp _
    rw [lookupFlag_foldl]
    simp [lookupFlag]

/-! Claim C2: pod enumeration order across retries. -/

/-- A task execution whose current pod name also appears in the retry
history. -/
def exTRDup : TaskRun :=
  { name := "t", podName := "p", retriesStatus := [⟨"p"⟩] }

/-- C2 counterexample: on `exTRDup` (retry history `["p"]`, current pod
`"p"`), the available-mode enumeration emits `"p"` twice — refuting "no
pod name is emitted twice" — while live-mode discovery deduplicates and
emits only `["p"]` — refuting "emit pod names in the order r₁,…,rₖ,p"
for live mode. -/
theorem c2_counterexample :
    availablePodNames exTRDup = ["p", "p"]
    ∧ (availablePodNames exTRDup).Nodup = False
    ∧ liveInitPodNames exTRDup = ["p"]
    ∧ (liveInitPodNames exTRDup
        ≠ exTRDup.retriesStatus.map (fun rs => rs.podName) ++ [exTRDup.podName]) := by
  refine ⟨by decide, by simp [availablePodNames, exTRDup], by decide, by decide⟩

/-- C2 amended: when the retry pod names together with the current pod
name are pairwise distinct and the current pod name is non-empty, both
the available-mode enumeration and the live-mode entry emission produce
exactly r₁, …, rₖ, p, each name once. -/
theorem c2_pod_order_amended (tr : TaskRun)
    (hpod : tr.podName ≠ "")
    (hnd : (tr.retriesStatus.map (fun rs => rs.podName) ++ [tr.podName]).Nodup) :
    availablePodNames tr = tr.retriesStatus.map (fun rs => rs.podName) ++ [tr.podName]
    ∧ liveInitPodNames tr = tr.retriesStatus.map (fun rs => rs.podName) ++ [tr.podName]
    ∧ (availablePodNames tr).Nodup := by
  have havail :
      availablePodNames tr
        = tr.retriesStatus.map (fun rs => rs.podName) ++ [tr.podName] := by
    simp [availablePodNames, hpod]
  have hlive :
      liveInitPodNames tr
        = tr.retriesStatus.map (fun rs => rs.podName) ++ [tr.podName] := by
    have hif : (if tr.podName != "" then [tr.podName] else []) = [tr.podName] := by
      simp [hpod]
    rw [liveInitPodNames, liveEntry, hif,
      emitAll_of_nodup _ [] (by intro n _; exact List.not_mem_nil n) hnd]
  exact ⟨havail, hlive, havail ▸ hnd⟩

/-- A task execution with one retry pod and a distinct current pod. -/
def exTRRetry : TaskRun :=
  { name := "t", podName := "p1", retriesStatus := [⟨"p0"⟩] }

/-- C2 witness: the amended theorem applied to `exTRRetry`. -/
theorem c2_witness :
    availablePodNames exTRRetry
      = exTRRetry.retriesStatus.map (fun rs => rs.podName) ++ [exTRRetry.podName]
    ∧ liveInitPodNames exTRRetry
      = exTRRetry.retriesStatus.map (fun rs => rs.podName) ++ [exTRRetry.podName]
    ∧ (availablePodNames exTRRetry).Nodup :=
  c2_pod_order_amended exTRRetry (by decide) (by decide)

/-! Claim C6: the activity-timeout branch of live pod-name discovery. -/

/-- A task execution that has started, has a pod name, is not done, and
has an empty retry history while one retry is configured: retries are
still scheduled at timeout. -/
def exTRWaiting : TaskRun :=
  { name := "t", podName := "p", startTime := some 1 }

/-- C6 counterexample: on `exTRWaiting` with one configured retry the
task has not failed and a further retry is expected, so the claim's
"otherwise" clause demands the not-started error and termination; the
code instead continues waiting (it emits nothing and keeps the watch
open). -/
theorem c6_counterexample :
    hasTaskRunFailed exTRWaiting "t" = none
    ∧ trHasStarted exTRWaiting = true
    ∧ exTRWaiting.podName = "p"
    ∧ areRetriesScheduled exTRWaiting 1 = true
    ∧ timeoutCheck exTRWaiting "t" 1 = TimeoutOutcome.keepWaiting := by
  decide

/-- C6 amended: on timeout, a failed task yields exactly its failure
error and discovery stops; a started task with a pod name stops silently
when no further retries are expected, but merely continues waiting when
they are; only a task that has not started or has no pod name yields the
not-started error. -/
theorem c6_timeout_amended (tr : TaskRun) (taskName : String) (retries : Int) :
    (∀ e, hasTaskRunFailed tr taskName = some e →
      timeoutCheck tr taskName retries = TimeoutOutcome.emitErr e)
    ∧ (hasTaskRunFailed tr taskName = none → trHasStarted tr = true →
      tr.podName ≠ "" → areRetriesScheduled tr retries = false →
      timeoutCheck tr taskName retries = TimeoutOutcome.stopNormal)
    ∧ (hasTaskRunFailed tr taskName = none → trHasStarted tr = true →
      tr.podName ≠ "" → areRetriesScheduled tr retries = true →
      timeoutCheck tr taskName retries = TimeoutOutcome.keepWaiting)
    ∧ (hasTaskRunFailed tr taskName = none →
      (trHasStarted tr = false ∨ tr.podName = "") →
      timeoutCheck tr taskName retries = TimeoutOutcome.emitErr (notStartedMsg taskName)) := by
  refine ⟨?_, ?_, ?_, ?_⟩
  · intro e he
    simp [timeoutCheck, he]
  · intro he hs hp hr
    simp [timeoutCheck, he, hs, hp, hr]
  · intro he hs hp hr
    simp [timeoutCheck, he, hs, hp, hr]
  · intro he hcase
    rcases hcase with hs | hp
    · simp [timeoutCheck, he, hs]
    · simp [timeoutCheck, he, hp]

/-- A started, completed task execution with a pod name: no retries are
scheduled once the run is done. -/
def exTRDone : TaskRun :=
  { name := "t", podName := "p", startTime := some 1, completionTime := some 2 }

/-- C6 witness: the amended theorem applied to `exTRDone`. -/
theorem c6_witness :
    timeoutCheck exTRDone "t" 3 = TimeoutOutcome.stopNormal :=
  (c6_timeout_amended exTRDone "t" 3).2.1 (by decide) (by decide) (by decide) (by decide)

/-! Claim C4: error handling in the `readPodLogs` pod loop. -/

/-- A healthy pod backing the second attempt: one terminated step
container with one log line. -/
def exPodOk : Pod :=
  { name := "pod-b", phase := PodPhase.succeeded,
    containers := ["step-s"],
    containerStatuses := [⟨"step-s", { terminated := some 0 }⟩] }

/-- Container behaviour used by the C4 scenario: every container
delivers one line and closes cleanly. -/
def exRuns : String → StepRun :=
  fun _ => { read := ReadResult.ok ["hello"] [] }

/-- The failing first attempt: `Pod.Wait` returned a nil pod and an
error (part_000 lines 77-79). -/
def exPodInFail : PodInput :=
  { fetch := { pod := none, err := some "pod p0 not found" }, runs := exRuns }

/-- The healthy second attempt. -/
def exPodInOk : PodInput :=
  { fetch := { pod := some exPodOk }, runs := exRuns }

/-- The reader configuration of the C4 scenario. -/
def exCfg : ReaderCfg :=
  { task := "build", displayName := "build", runName := "run1" }

/-- C4: the fetch error is forwarded, but — the loop body having no
`continue` — `filterSteps` then dereferences the nil pod pointer and the
goroutine panics, so the subsequent healthy retry pod contributes
nothing; processed alone, that same pod yields its line and `EOFLOG`.
The claim (and the spec) say the failed pod is skipped and later pod
names are still streamed. -/
theorem c4_fetch_error_crash :
    readPodLogs exCfg true [exPodInFail, exPodInOk]
      = [PEvent.errRec (podFailMsg exCfg "pod p0 not found"), PEvent.crash]
    ∧ readPodLogs exCfg true [exPodInOk]
      = [PEvent.logRec (mkLog "build" "build" "s" "hello"),
         PEvent.logRec (eofLog "build" "build" "s")] := by
  constructor
  · rfl
  · decide

/-! Claim C8: termination of live pod-name discovery. -/

/-- C8: as soon as the event loop of `getTaskRunPodNames` processes an
event whose task snapshot has a non-empty pod name and a retry history
at least the configured count, the goroutine returns (flag `true`:
channels closed, watch stopped), and the emitted outputs are
independent of everything delivered after that event — no pod name is
emitted past that point. -/
theorem c8_discovery_terminates (retries : Int) (seen : List String)
    (pre : List (Except String TaskRun)) (run : TaskRun)
    (post post' : List (Except String TaskRun))
    (hpod : run.podName ≠ "")
    (hret : (run.retriesStatus.length : Int) ≥ retries) :
    (eventLoop retries seen (pre ++ Except.ok run :: post)).2 = true
    ∧ eventLoop retries seen (pre ++ Except.ok run :: post)
      = eventLoop retries seen (pre ++ Except.ok run :: post') := by
  have hsched : areRetriesScheduled run retries = false := by
    by_cases hd : trIsDone run
    · simp [areRetriesScheduled, hd]
    · simp [areRetriesScheduled, hd]
      omega
  induction pre generalizing seen with
  | nil =>
    simp [eventLoop, hpod, hsched]
  | cons e rest ih =>
    cases e with
    | error m => simp [eventLoop]
    | ok r =>
      by_cases hp : r.podName = ""
      · simpa [eventLoop, hp] using ih seen
      · by_cases hs : areRetriesScheduled r retries
        · have h1 := (ih (addPod seen r.podName).1).1
          have h2 := (ih (addPod seen r.podName).1).2
          constructor
          · simp [eventLoop, hp, hs, h1]
          · simp [eventLoop, hp, hs, h2]
        · simp [eventLoop, hp, hs]

/-- A snapshot whose retry history has reached the configured single
retry while the current pod is set. -/
def exTRFinal : TaskRun :=
  { name := "t", podName := "p", retriesStatus := [⟨"q"⟩] }

/-- An event delivered after the terminating one; C8 says it is never
looked at. -/
def exEvLate : Except String TaskRun :=
  Except.ok { name := "t", podName := "z" }

/-- C8 witness: the theorem applied with one configured retry, an empty
prefix, and a late event that the loop must ignore. -/
theorem c8_witness :
    (eventLoop 1 [] ([] ++ Except.ok exTRFinal :: [exEvLate])).2 = true
    ∧ eventLoop 1 [] ([] ++ Except.ok exTRFinal :: [exEvLate])
      = eventLoop 1 [] ([] ++ Except.ok exTRFinal :: []) :=
  c8_discovery_terminates 1 [] [] exTRFinal [exEvLate] [] (by decide) (by decide)

/-! Claim C9: the `Pod.Wait` channel protocol. -/

/-- Handler 1 has acquired the mutex and sits at the select. -/
def w1 : WState :=
  { initW with mu := some Holder.h1, pc1 := HandlerPC.checkStop }

/-- Handler 1 saw `stopC` open and committed to the send. -/
def w2 : WState :=
  { w1 with pc1 := HandlerPC.sending }

/-- Handler 1's send rendezvoused with the receiving waiter; its event
was decisive, so `Wait` broke out of the receive loop and its deferred
close now wants the mutex. -/
def w3 : WState :=
  { w2 with pc1 := HandlerPC.finished, mu := none, waiter := WaiterPC.lockForClose }

/-- Handler 2 won the race for the freed mutex. -/
def w4 : WState :=
  { w3 with mu := some Holder.h2, pc2 := HandlerPC.checkStop }

/-- C9: the `Pod.Wait` protocol can deadlock.  From the initial state
with two pending informer events, five transitions reach `stuckW`:
handler 2 holds the mutex blocked in `eventC <- obj` (the waiter no
longer receives), while the waiter's deferred close is blocked in
`mu.Lock()` — no transition is enabled (`successors` is empty) and the
waiter never reaches `done`, so `Wait` returns no result at all,
refuting "Wait returns exactly one (pod, error) result … excludes … any
deadlock between a blocked sender and the closer". -/
theorem c9_wait_deadlock :
    Relation.ReflTransGen (WStep true true) initW stuckW
    ∧ successors true true stuckW = []
    ∧ stuckW.mu = some Holder.h2
    ∧ stuckW.pc2 = HandlerPC.sending
    ∧ stuckW.waiter = WaiterPC.lockForClose
    ∧ (stuckW.waiter == WaiterPC.done) = false :=
  ⟨Relation.ReflTransGen.tail (b := w4)
    (Relation.ReflTransGen.tail (b := w3)
      (Relation.ReflTransGen.tail (b := w2)
        (Relation.ReflTransGen.tail (b := w1)
          (Relation.ReflTransGen.tail (b := initW)
            Relation.ReflTransGen.refl (by decide))
          (by decide))
        (by decide))
      (by decide))
    (by decide),
   by decide, rfl, rfl, rfl, by decide⟩

/-! Claim C10: containers without a status entry are not skipped. -/

/-- C10: a spec container with no matching entry in
`container_statuses` gets the zero `ContainerState` (its `Waiting` field
nil), so the derived step `hasStarted`, is not skipped in non-follow
mode, and its log read is attempted (it is streamed whenever its reader
opens successfully). -/
theorem c10_missing_status_not_skipped (pod : Pod) (c : String)
    (hc : c ∈ pod.containers) (hs : ∀ cs ∈ pod.containerStatuses, cs.name ≠ c) :
    ({ name := trimStep c, container := c, state := {} } : Step) ∈ getSteps pod
    ∧ hasStarted { name := trimStep c, container := c, state := {} } = true
    ∧ stepSkipped false { name := trimStep c, container := c, state := {} } = false
    ∧ ∀ (lines errs : List String) (sched : List Bool) (rest : List (Step × StepRun)),
        streamedSteps false
          (({ name := trimStep c, container := c, state := {} },
            { read := ReadResult.ok lines errs, sched := sched, statusErr := none }) :: rest)
          = ({ name := trimStep c, container := c, state := {} }, lines)
            :: streamedSteps false rest := by
  refine ⟨?_, rfl, rfl, ?_⟩
  · have hmem := List.mem_map_of_mem
      (f := fun c =>
        ({ name := trimStep c, container := c, state := stateMap pod.containerStatuses c } : Step))
      hc
    simp only at hmem
    rw [stateMap_nomatch pod.containerStatuses c hs] at hmem
    exact hmem
  · intro lines errs sched rest
    simp [streamedSteps, stepSkipped, hasStarted]

/-- A pod whose single step container has not yet produced a status
entry. -/
def exPodNoStatus : Pod :=
  { name := "w", phase := PodPhase.pending, containers := ["step-x"] }

/-- C10 witness: the theorem applied to `exPodNoStatus`; the derived
step is present and is streamed in non-follow mode. -/
theorem c10_witness :
    ({ name := "x", container := "step-x", state := {} } : Step) ∈ getSteps exPodNoStatus
    ∧ streamedSteps false
        [({ name := "x", container := "step-x", state := {} },
          { read := ReadResult.ok ["l1"] [], sched := [], statusErr := none })]
        = [(({ name := "x", container := "step-x", state := {} } : Step), ["l1"])] :=
  ⟨(c10_missing_status_not_skipped exPodNoStatus "step-x" (by decide) (by decide)).1,
   (c10_missing_status_not_skipped exPodNoStatus "step-x" (by decide)
      (by decide)).2.2.2 ["l1"] [] [] []⟩

/-! Claim C1: one `EOFLOG` per streamed step, after all its lines. -/

theorem logsOf_nil : logsOf [] = [] := rfl

theorem logsOf_cons_log (l : Log) (r : List Event) :
    logsOf (Event.logRec l :: r) = l :: logsOf r := rfl

theorem logsOf_cons_err (m : String) (r : List Event) :
    logsOf (Event.errRec m :: r) = logsOf r := by
  simp [logsOf, toLog]

theorem logsOf_append (a b : List Event) :
    logsOf (a ++ b) = logsOf a ++ logsOf b := by
  simp [logsOf, List.filterMap_append]

theorem logsOf_drainLines (t d s : String) (ls : List String) :
    logsOf (drainLines t d s ls) = ls.map (mkLog t d s) ++ [eofLog t d s] := by
  induction ls with
  | nil => rfl
  | cons l r ih => simp [drainLines, logsOf_cons_log, ih]

theorem logsOf_drainErrs (s : String) (es : List String) :
    logsOf (drainErrs s es) = [] := by
  induction es with
  | nil => rfl
  | cons e r ih => simp [drainErrs, logsOf_cons_err, ih]

theorem logsOf_muxStep_some (t d s : String) :
    ∀ (sched : List Bool) (ls : List String) (errC : Option (List String)),
      logsOf (muxStep t d s (some ls) errC sched)
        = ls.map (mkLog t d s) ++ [eofLog t d s] := by
  intro sched
  induction sched with
  | nil =>
    intro ls errC
    cases errC with
    | none => simp [muxStep, logsOf_drainLines]
    | some es => simp [muxStep, logsOf_append, logsOf_drainLines, logsOf_drainErrs]
  | cons b sch ih =>
    intro ls errC
    cases errC with
    | none => simp [muxStep, logsOf_drainLines]
    | some es =>
      cases b with
      | true =>
        cases ls with
        | nil => simp [muxStep, logsOf_cons_log, logsOf_drainErrs]
        | cons l r => simp [muxStep, logsOf_cons_log, ih r (some es)]
      | false =>
        cases es with
        | nil => simp [muxStep, logsOf_drainLines]
        | cons e r => simp [muxStep, logsOf_cons_err, ih ls (some r)]

theorem logsOf_readStepsLogs (t d : String) (follow : Bool) :
    ∀ (steps : List (Step × StepRun)),
      logsOf (readStepsLogs t d follow steps)
        = stepBlocks t d (streamedSteps follow steps) := by
  intro steps
  induction steps with
  | nil => rfl
  | cons p rest ih =>
    obtain ⟨st, run⟩ := p
    by_cases hskip : stepSkipped follow st
    · simp [readStepsLogs, streamedSteps, hskip, ih]
    · cases hread : run.read with
      | readErr m =>
        simp [readStepsLogs, streamedSteps, hskip, hread, logsOf_cons_err, ih]
      | ok lines errs =>
        cases hstat : run.statusErr with
        | some e =>
          simp [readStepsLogs, streamedSteps, hskip, hread, hstat, logsOf_append,
            logsOf_muxStep_some, stepBlocks, logsOf_cons_err, logsOf_nil]
        | none =>
          simp [readStepsLogs, streamedSteps, hskip, hread, hstat, logsOf_append,
            logsOf_muxStep_some, stepBlocks, ih]

theorem filter_block_ne (t d m n : String) (lines : List String)
    (h : (m == n) = false) :
    (lines.map (mkLog t d m)).filter (fun l => l.step == n) = [] := by
  induction lines with
  | nil => rfl
  | cons l r ih => simp [mkLog, h, ih]

theorem filter_block_eq (t d n : String) (lines : List String) :
    (lines.map (mkLog t d n)).filter (fun l => l.step == n) = lines.map (mkLog t d n) := by
  induction lines with
  | nil => rfl
  | cons l r ih => simp [mkLog, ih]

theorem stepBlocks_filter_nomem (t d n : String) :
    ∀ (list : List (Step × List String)), (∀ p ∈ list, (p.1.name == n) = false) →
      (stepBlocks t d list).filter (fun l => l.step == n) = []
  | [], _ => rfl
  | (st, lines) :: rest, h => by
    have hhead : (st.name == n) = false := h (st, lines) (List.mem_cons_self _ _)
    simp [stepBlocks, List.filter_append, filter_block_ne t d st.name n lines hhead,
      eofLog, mkLog, hhead,
      stepBlocks_filter_nomem t d n rest (fun p hp => h p (List.mem_cons_of_mem _ hp))]

theorem stepBlocks_filter_mem (t d : String) (st : Step) (lines : List String) :
    ∀ (list : List (Step × List String)),
      (list.map (fun p => p.1.name)).Nodup → (st, lines) ∈ list →
      (stepBlocks t d list).filter (fun l => l.step == st.name)
        = lines.map (mkLog t d st.name) ++ [eofLog t d st.name]
  | [], _, hmem => absurd hmem (List.not_mem_nil _)
  | (st', lines') :: rest, hnd, hmem => by
    rw [List.map_cons] at hnd
    rcases List.mem_cons.mp hmem with heq | hrest
    · injection heq with h1 h2
      subst h1
      subst h2
      have hnotin : st.name ∉ rest.map (fun p => p.1.name) := (List.nodup_cons.mp hnd).1
      have hr : ∀ p ∈ rest, (p.1.name == st.name) = false := by
        intro p hp
        have hin : p.1.name ∈ rest.map (fun p => p.1.name) := List.mem_map_of_mem _ hp
        by_cases hb : p.1.name = st.name
        · exact absurd (hb ▸ hin) hnotin
        · simp [hb]
      simp [stepBlocks, List.filter_append, filter_block_eq, eofLog, mkLog,
        stepBlocks_filter_nomem t d st.name rest hr]
    · have hin : st.name ∈ rest.map (fun p => p.1.name) :=
        List.mem_map_of_mem (fun p => p.1.name) hrest
      have hne : (st'.name == st.name) = false := by
        have hni := (List.nodup_cons.mp hnd).1
        by_cases hb : st'.name = st.name
        · exact absurd (hb ▸ hin) hni
        · simp [hb]
      simp [stepBlocks, List.filter_append, filter_block_ne t d st'.name st.name lines' hne,
        eofLog, mkLog, hne,
        stepBlocks_filter_mem t d st lines rest (List.nodup_cons.mp hnd).2 hrest]

/-- C1: for every step that `readStepsLogs` streams during one pod
attempt (step names being distinct among the streamed steps), the Log
records carrying that step's name are exactly its lines in order
followed by one `EOFLOG`: every line record precedes the `EOFLOG`, no
log record for the step follows it, and (when no payload line is itself
the literal `EOFLOG`) the number of `EOFLOG` records for the step is
exactly one. -/
theorem c1_eoflog_once_and_last (t d : String) (follow : Bool)
    (steps : List (Step × StepRun)) (st : Step) (lines : List String)
    (hnd : ((streamedSteps follow steps).map (fun p => p.1.name)).Nodup)
    (hmem : (st, lines) ∈ streamedSteps follow steps)
    (hline : "EOFLOG" ∉ lines) :
    (logsOf (readStepsLogs t d follow steps)).filter (fun l => l.step == st.name)
      = lines.map (mkLog t d st.name) ++ [eofLog t d st.name]
    ∧ ((logsOf (readStepsLogs t d follow steps)).filter
        (fun l => l.log == "EOFLOG" && l.step == st.name)).length = 1 := by
  have hmain : (logsOf (readStepsLogs t d follow steps)).filter (fun l => l.step == st.name)
      = lines.map (mkLog t d st.name) ++ [eofLog t d st.name] := by
    rw [logsOf_readStepsLogs]
    exact stepBlocks_filter_mem t d st lines (streamedSteps follow steps) hnd hmem
  refine ⟨hmain, ?_⟩
  rw [← List.filter_filter, hmain, List.filter_append]
  have h1 : ∀ ls : List String, "EOFLOG" ∉ ls →
      (ls.map (mkLog t d st.name)).filter (fun l => l.log == "EOFLOG") = [] := by
    intro ls hls
    induction ls with
    | nil => rfl
    | cons x r ih =>
      have hx : (x == "EOFLOG") = false := by
        simp only [List.mem_cons] at hls
        have hne : ¬x = "EOFLOG" := by
          intro h
          exact hls (Or.inl h.symm)
        simp [hne]
      simp only [List.map_cons, List.filter_cons, mkLog, hx]
      exact ih (fun h => hls (List.mem_cons_of_mem _ h))
  rw [h1 lines hline]
  simp [eofLog, mkLog]

/-- A streamed step with two log lines, used by the C1 witness. -/
def exStep1 : Step :=
  { name := "s1", container := "step-s1", state := {} }

/-- The container behaviour of `exStep1`: two lines, a clean close. -/
def exRun1 : StepRun :=
  { read := ReadResult.ok ["a", "b"] [] }

/-- C1 witness: the theorem applied to a single streamed step. -/
theorem c1_witness :
    (logsOf (readStepsLogs "t" "t" false [(exStep1, exRun1)])).filter
        (fun l => l.step == exStep1.name)
      = (["a", "b"] : List String).map (mkLog "t" "t" exStep1.name)
        ++ [eofLog "t" "t" exStep1.name]
    ∧ ((logsOf (readStepsLogs "t" "t" false [(exStep1, exRun1)])).filter
        (fun l => l.log == "EOFLOG" && l.step == exStep1.name)).length = 1 :=
  c1_eoflog_once_and_last "t" "t" false [(exStep1, exRun1)] exStep1 ["a", "b"]
    (by decide) (by decide) (by decide)

/-! Claim C7: a post-step status error stops the pod's remaining steps. -/

/-- Whether the processing of one step makes `readStepsLogs` return
early: only a streamed step whose post-step `container.Status()` call
errors does (task_reader.go lines 190-193). -/
def stepStops (follow : Bool) (p : Step × StepRun) : Bool :=
  if stepSkipped follow p.1 then false
  else
    match p.2.read with
    | ReadResult.readErr _ => false
    | ReadResult.ok _ _ => p.2.statusErr.isSome

theorem readStepsLogs_append_nostop (t d : String) (follow : Bool) :
    ∀ (pre l2 : List (Step × StepRun)), (∀ p ∈ pre, stepStops follow p = false) →
      readStepsLogs t d follow (pre ++ l2)
        = readStepsLogs t d follow pre ++ readStepsLogs t d follow l2
  | [], _, _ => rfl
  | (st, run) :: rest, l2, h => by
    have hst := h (st, run) (List.mem_cons_self _ _)
    have hr := readStepsLogs_append_nostop t d follow rest l2
      (fun p hp => h p (List.mem_cons_of_mem _ hp))
    by_cases hskip : stepSkipped follow st
    · simp [readStepsLogs, hskip, hr]
    · cases hread : run.read with
      | readErr m => simp [readStepsLogs, hskip, hread, hr]
      | ok lines errs =>
        have hnone : run.statusErr = none := by
          simp [stepStops, hskip, hread] at hst
          cases hstat : run.statusErr with
          | none => rfl
          | some e => rw [hstat] at hst; simp at hst
        simp [readStepsLogs, hskip, hread, hnone, hr]

/-- C7: when a streamed step's `container.Status()` returns an error
(after its line and error channels closed), that error is forwarded and
`readStepsLogs` returns — the pod's remaining steps contribute nothing;
and the `readPodLogs` loop still processes every subsequent pod name
(the events of a successfully fetched pod are followed by the processing
of the remaining pod list, whatever happened inside earlier pods). -/
theorem c7_status_error_stops_pod (t d : String) (follow : Bool)
    (pre rest : List (Step × StepRun)) (st : Step) (run : StepRun)
    (lines errs : List String) (e : String)
    (hpre : ∀ p ∈ pre, stepStops follow p = false)
    (hskip : stepSkipped follow st = false)
    (hread : run.read = ReadResult.ok lines errs)
    (hstat : run.statusErr = some e)
    (cfg : ReaderCfg) (follow2 : Bool) (pin : PodInput) (pins : List PodInput) (pod : Pod)
    (hfetch : pin.fetch = { pod := some pod, err := none }) :
    readStepsLogs t d follow (pre ++ (st, run) :: rest)
      = readStepsLogs t d follow pre
        ++ (muxStep t d st.name (some lines) (some errs) run.sched ++ [Event.errRec e])
    ∧ readPodLogs cfg follow2 (pin :: pins)
      = (readStepsLogs cfg.task cfg.displayName follow2
          ((filterSteps pod cfg.allSteps cfg.steps).map
            (fun s => (s, pin.runs s.container)))).map liftEvent
        ++ readPodLogs cfg follow2 pins := by
  constructor
  · rw [readStepsLogs_append_nostop t d follow pre ((st, run) :: rest) hpre]
    simp [readStepsLogs, hskip, hread, hstat]
  · simp [readPodLogs, hfetch]

/-- The step whose status check fails in the C7 witness. -/
def exStep7 : Step :=
  { name := "s0", container := "step-s0", state := {} }

/-- The container behaviour of `exStep7`: one line, then a failing
status. -/
def exRun7 : StepRun :=
  { read := ReadResult.ok ["x"] [], statusErr := some "oops" }

/-- The pod of the C7 witness scenario. -/
def exPod7 : Pod :=
  { name := "pod-c", phase := PodPhase.succeeded, containers := ["step-s0"] }

/-- The reader configuration of the C7 witness scenario. -/
def exCfg7 : ReaderCfg :=
  { task := "t7", displayName := "t7", runName := "run7" }

/-- The pod input of the C7 witness scenario (fetch succeeds). -/
def exPodIn7 : PodInput :=
  { fetch := { pod := some exPod7 }, runs := fun _ => exRun7 }

/-- C7 witness: the theorem applied to a concrete stopping step followed
by one further step, and to a concrete one-pod list. -/
theorem c7_witness :
    readStepsLogs "t" "t" false ([] ++ (exStep7, exRun7) :: [(exStep1, exRun1)])
      = readStepsLogs "t" "t" false []
        ++ (muxStep "t" "t" exStep7.name (some ["x"]) (some []) exRun7.sched
            ++ [Event.errRec "oops"])
    ∧ readPodLogs exCfg7 false (exPodIn7 :: [])
      = (readStepsLogs exCfg7.task exCfg7.displayName false
          ((filterSteps exPod7 exCfg7.allSteps exCfg7.steps).map
            (fun s => (s, exPodIn7.runs s.container)))).map liftEvent
        ++ readPodLogs exCfg7 false [] :=
  c7_status_error_stops_pod "t" "t" false [] [(exStep1, exRun1)] exStep7 exRun7
    ["x"] [] "oops" (fun p hp => absurd hp (List.not_mem_nil p))
    (by decide) rfl rfl exCfg7 false exPodIn7 [] exPod7 rfl

end TknLog
